import Mathlib

/-!
Shallow embedding of the range/state engine of
`src/date-and-daytime-range-picker.js` (a date + daytime range picker web
component), together with proofs about the claims of its specification.

Conventions of the embedding:
* JavaScript numbers holding day indexes, minutes, pixel deltas and epoch
  milliseconds are modelled as `Int`; values produced by real-number division
  before a `Math.round`/`Math.floor`/`Math.ceil` are modelled as exact
  rationals (`ℚ`), since all quantities involved are far below 2^53 where
  double arithmetic on integers is exact.
* `Math.round x` is `⌊x + 1/2⌋` (JS rounds half toward +∞), `Math.floor` is
  `Int.ediv` for positive divisors, `Math.ceil p/q` is `-((-p)/q)`.
* The JS `%` operator truncates toward zero and is modelled by `Int.tmod`.
* Calendar dates are modelled at day granularity: a date-only `Date` object
  is its day number (days since 1970-01-01 in the proleptic Gregorian
  calendar).  The civil (year, month, day) view used for formatting is given
  by explicit conversion functions.  The platform's local-midnight epoch of a
  day (which shifts with the zone's UTC offset) is an abstract function
  `off : Int → Int` giving the zone offset in minutes at each local midnight.
-/

/- ### JavaScript arithmetic helpers -/

/-- The code's `#clamp(min, max, v)`, i.e. `Math.max(lo, Math.min(hi, v))`. -/
def jsClamp (lo hi v : Int) : Int := max lo (min hi v)

/-- Rounding `Math.round (p / q)` for integers `p` and positive `q`:
JS `Math.round x = ⌊x + 1/2⌋`, and `⌊p/q + 1/2⌋ = ⌊(2p+q)/(2q)⌋`. -/
def jsRoundDiv (p q : Int) : Int := (2 * p + q) / (2 * q)

/-- Ceiling `Math.ceil (p / q)` for integers `p` and positive `q`. -/
def jsCeilDiv (p q : Int) : Int := -((-p) / q)

/-- Rounding `Math.round x` for a rational `x`: JS rounds half toward +∞. -/
def jsRoundQ (x : ℚ) : Int := Rat.floor (x + 1 / 2)

/-- Absolute value `Math.abs x` for a rational `x`. -/
def jsAbsQ (x : ℚ) : ℚ := if x < 0 then -x else x

/-- JS number truncation toward zero (used by the JS `%` on reals). -/
def jsTruncQ (x : ℚ) : Int := if 0 ≤ x then Rat.floor x else -Rat.floor (-x)

/-- The JS `%` operator on reals: `x % m = x - m * trunc (x / m)`. -/
def jsModQ (x m : ℚ) : ℚ := x - m * (jsTruncQ (x / m) : ℚ)

/-- The code's `#snapToStep(value, step)`: `Math.round(value / step) * step`. -/
def snapToStep (value step : Int) : Int := jsRoundDiv value step * step

/-- The code's wrap helper `(v % 1440 + 1440) % 1440` with JS truncating `%`
(the outer operand is nonnegative, so the outer `%` is again `Int.tmod`). -/
def jsWrap1440 (v : Int) : Int := Int.tmod (Int.tmod v 1440 + 1440) 1440

/- ### Civil (proleptic Gregorian) calendar conversions.
These model the platform's date arithmetic (`Date.UTC`, `getFullYear`,
`setDate`, …) at day granularity, using the standard era decomposition. -/

/-- Day number (days since 1970-01-01) of the civil date `(y, m, d)`;
`m` must be in `1..12`, while `d` may lie outside the month (the function is
linear in `d`, matching JS `Date` day-overflow normalization). -/
def epochDayFromCivil (y m d : Int) : Int :=
  let y2 := if m ≤ 2 then y - 1 else y
  let era := y2 / 400
  let yoe := y2 - era * 400
  let mp := (m + 9) % 12
  let doy := (153 * mp + 2) / 5 + d - 1
  let doe := yoe * 365 + yoe / 4 - yoe / 100 + doy
  era * 146097 + doe - 719468

/-- Civil date `(y, m, d)` of a day number. -/
def civilFromEpochDay (z : Int) : Int × Int × Int :=
  let z2 := z + 719468
  let era := z2 / 146097
  let doe := z2 - era * 146097
  let yoe := (doe - doe / 1460 + doe / 36524 - doe / 146096) / 365
  let y := yoe + era * 400
  let doy := doe - (365 * yoe + yoe / 4 - yoe / 100)
  let mp := (5 * doy + 2) / 153
  let d := doy - (153 * mp + 2) / 5 + 1
  let m := mp + (if mp < 10 then 3 else -9)
  (if m ≤ 2 then y + 1 else y, m, d)

/-- Day number of `new Date(y, mIdx, d)` (month index `mIdx = m - 1` may be out
of `0..11`; JS normalizes it by year carry with floor division). -/
def jsDateDayFromYMD (y m d : Int) : Int :=
  epochDayFromCivil (y + (m - 1) / 12) ((m - 1) % 12 + 1) d

/- ### Platform local-midnight model (for `#daysBetween`).
`new Date(y, mo, d).getTime()` is the epoch of local midnight, i.e. the day
number times 86400000 minus the zone offset (minutes) at that midnight. -/

/-- Epoch milliseconds of local midnight of day `day`, for a zone whose
offset (in minutes) at each local midnight is given by `off`. -/
def midnightMs (off : Int → Int) (day : Int) : Int :=
  day * 86400000 - off day * 60000

/-- The code's `#daysBetween(a, b)`:
`Math.round((b.getTime() - a.getTime()) / 86400000)` on the
midnight-normalized dates. -/
def daysBetween (off : Int → Int) (a b : Int) : Int :=
  jsRoundDiv (midnightMs off b - midnightMs off a) 86400000

/-- The code's `#dateToIdx(d)` (relative to the configured `minDate`). -/
def dateToIdx (off : Int → Int) (minDate d : Int) : Int :=
  daysBetween off minDate d

/-- The code's `#idxToDate(idx)`: `new Date(minDate)` then
`setDate(getDate() + idx)`, i.e. day-number addition. -/
def idxToDate (minDate idx : Int) : Int := minDate + idx

/- ### The mutable state (`this.#state`). -/

structure PickerState where
  minDate : Int
  maxDate : Int
  dateMin : Int
  dateMax : Int
  dateStart : Int
  dateEnd : Int
  dateStepDays : Int
  timeMin : Int
  timeMax : Int
  timeStart : Int
  timeEnd : Int
  timeStep : Int
  timeZone : String
deriving Repr, DecidableEq

/-- The code's `#clampAndSyncDates`: clamp each endpoint into
`[dateMin, dateMax]`, snap to the nearest multiple of `dateStepDays`, then
swap the endpoints if out of order. -/
def clampAndSyncDates (S : PickerState) : PickerState :=
  let s := snapToStep (jsClamp S.dateMin S.dateMax S.dateStart) S.dateStepDays
  let e := snapToStep (jsClamp S.dateMin S.dateMax S.dateEnd) S.dateStepDays
  if s > e then { S with dateStart := e, dateEnd := s }
  else { S with dateStart := s, dateEnd := e }

/-- The code's `#clampAndSyncTimes`: clamp each endpoint into
`[timeMin, timeMax]` and snap to the nearest multiple of `timeStep`;
no swap. -/
def clampAndSyncTimes (S : PickerState) : PickerState :=
  { S with
    timeStart := snapToStep (jsClamp S.timeMin S.timeMax S.timeStart) S.timeStep
    timeEnd := snapToStep (jsClamp S.timeMin S.timeMax S.timeEnd) S.timeStep }

/-- The `timeRange` setter: round each input to the nearest integer, clamp
into `[0, 1439]`, store, then run `#clampAndSyncTimes`. -/
def setTimeRange (S : PickerState) (startMinutes endMinutes : ℚ) : PickerState :=
  let s := jsClamp 0 1439 (jsRoundQ startMinutes)
  let e := jsClamp 0 1439 (jsRoundQ endMinutes)
  clampAndSyncTimes { S with timeStart := s, timeEnd := e }

/-- The `timeZone` setter: `set timeZone(v) { if (v) { … } }` — a falsy
(empty) string is rejected, any other string is stored unconditionally. -/
def setTimeZone (S : PickerState) (v : String) : PickerState :=
  if v = "" then S else { S with timeZone := v }

/- ### Date-attribute parsing (`#coerceDateOnly` on strings). -/

/-- Digit test for the `^\d{4}-\d{2}-\d{2}$` regular expression. -/
def isDigitChar (c : Char) : Bool := decide ('0' ≤ c) && decide (c ≤ '9')

/-- Numeric value of a digit character. -/
def digitVal (c : Char) : Int := Int.ofNat c.toNat - 48

/-- JS two-digit-year quirk of the `Date` constructor: years `0..99` are
interpreted as `1900..1999`. -/
def jsYearAdjust (y : Int) : Int := if 0 ≤ y ∧ y ≤ 99 then y + 1900 else y

/-- The code's `#coerceDateOnly` on a string: accept exactly
`YYYY-MM-DD` shaped strings (any digits) and build `new Date(y, m-1, d)`
(which normalizes out-of-range months and days); otherwise `null`. -/
def coerceDateOnly (s : String) : Option Int :=
  match s.toList with
  | [c1, c2, c3, c4, '-', c5, c6, '-', c7, c8] =>
    if isDigitChar c1 && isDigitChar c2 && isDigitChar c3 && isDigitChar c4 &&
       isDigitChar c5 && isDigitChar c6 && isDigitChar c7 && isDigitChar c8 then
      let y := digitVal c1 * 1000 + digitVal c2 * 100 + digitVal c3 * 10 + digitVal c4
      let m := digitVal c5 * 10 + digitVal c6
      let d := digitVal c7 * 10 + digitVal c8
      some (jsDateDayFromYMD (jsYearAdjust y) m d)
    else none
  | _ => none

/-- The code's `#coerceDateOnly` applied to a possibly-absent attribute. -/
def coerceDateOnlyAttr (a : Option String) : Option Int :=
  Option.bind a coerceDateOnly

/-- The code's `#initDateBounds`: parse the `min-date` and `max-date`
attributes; if either is absent or unparseable, or min > max (as `Date`
epoch comparison), substitute max = today and min = today − 30 days.
Then set `dateMin := 0` and `dateMax := daysBetween minDate maxDate`. -/
def initDateBounds (off : Int → Int) (today : Int)
    (attrMin attrMax : Option String) (S : PickerState) : PickerState :=
  let minD? := coerceDateOnlyAttr attrMin
  let maxD? := coerceDateOnlyAttr attrMax
  let p : Int × Int :=
    match minD?, maxD? with
    | some a, some b =>
      if midnightMs off a > midnightMs off b then (today - 30, today) else (a, b)
    | _, _ => (today - 30, today)
  { S with
    minDate := p.1
    maxDate := p.2
    dateMin := 0
    dateMax := daysBetween off p.1 p.2 }

/- ### Gesture engine (`#makeTrackInteractive`, recenter helpers). -/

/-- The date branch of `onPointerMove`: the pixel-proportional shift `rawShift`
(already `Math.round(dx / width * span)`, an arbitrary integer) is rounded to the
nearest multiple of `step` and clamped into
`[⌈(lo − a)/step⌉·step, ⌊(hi − b)/step⌋·step]`. -/
def dateTrackShift (a b lo hi step rawShift : Int) : Int :=
  let shift := snapToStep rawShift step
  let minShiftStep := jsCeilDiv (lo - a) step * step
  let maxShiftStep := (hi - b) / step * step
  max minShiftStep (min maxShiftStep shift)

/-- Applying the date-track drag to the pointer-down snapshot `(a, b)`. -/
def dateDragApply (a b lo hi step rawShift : Int) : Int × Int :=
  let s := dateTrackShift a b lo hi step rawShift
  (a + s, b + s)

/-- The time branch of `onPointerMove`: round the raw shift to the nearest
multiple of `step`, then wrap both endpoints modulo 1440 — no clamping. -/
def timeDragApply (a b step rawShift : Int) : Int × Int :=
  let s := snapToStep rawShift step
  (jsWrap1440 (a + s), jsWrap1440 (b + s))

/-- The code's `#recenterDateAt(r)`. -/
def recenterDateAt (S : PickerState) (frac : ℚ) : PickerState :=
  let r : ℚ := max 0 (min 1 frac)
  let span : Int := S.dateMax - S.dateMin
  let currentCenter : ℚ := ((S.dateStart : ℚ) + (S.dateEnd : ℚ)) / 2
  let targetCenter : ℚ := (S.dateMin : ℚ) + r * (span : ℚ)
  let shift0 : ℚ := targetCenter - currentCenter
  let shift : Int := jsRoundQ (shift0 / (S.dateStepDays : ℚ)) * S.dateStepDays
  let minShiftStep := jsCeilDiv (S.dateMin - S.dateStart) S.dateStepDays * S.dateStepDays
  let maxShiftStep := (S.dateMax - S.dateEnd) / S.dateStepDays * S.dateStepDays
  let s := max minShiftStep (min maxShiftStep shift)
  { S with dateStart := S.dateStart + s, dateEnd := S.dateEnd + s }

/-- The code's `#recenterTimeAt(r)`. -/
def recenterTimeAt (S : PickerState) (frac : ℚ) : PickerState :=
  let r : ℚ := max 0 (min 1 frac)
  let width : Int :=
    if S.timeEnd ≥ S.timeStart then S.timeEnd - S.timeStart
    else 1440 - S.timeStart + S.timeEnd
  let center0 : ℚ := jsModQ ((S.timeStart : ℚ) + (width : ℚ) / 2) 1440
  let center : ℚ := jsModQ (center0 + 1440) 1440
  let target : Int := jsWrap1440 (jsRoundQ (r * 1439))
  let shift0 : ℚ := (target : ℚ) - center
  let shift : Int := jsRoundQ (shift0 / (S.timeStep : ℚ)) * S.timeStep
  { S with
    timeStart := jsWrap1440 (S.timeStart + shift)
    timeEnd := jsWrap1440 (S.timeEnd + shift) }

/- ### Tick planner (`#chooseDateTickStep`). -/

/-- The fixed candidate set of the date tick planner. -/
def tickCandidates : List Int := [1, 2, 5, 7, 14, 30, 60, 90, 120, 180, 365]

/-- The planner's objective `|totalDays / c − target|` (exact real
division in JS, modelled as a rational). -/
def tickDiff (totalDays target c : Int) : ℚ :=
  jsAbsQ ((totalDays : ℚ) / (c : ℚ) - (target : ℚ))

/-- The planner's scan: keep the first candidate whose objective is strictly
smaller than the best so far. -/
def chooseStepAux (totalDays target : Int) : List Int → Int → ℚ → Int
  | [], best, _ => best
  | c :: rest, best, bestDiff =>
    if tickDiff totalDays target c < bestDiff then
      chooseStepAux totalDays target rest c (tickDiff totalDays target c)
    else
      chooseStepAux totalDays target rest best bestDiff

/-- The code's `#chooseDateTickStep(totalDays, target)`. -/
def chooseDateTickStep (totalDays target : Int) : Int :=
  chooseStepAux totalDays target tickCandidates 1 (tickDiff totalDays target 1)

/- ### Time-zone math (`#getOffsetMinutes`, `#localToEpoch`,
`#toISOWithOffset`).  The platform `Intl.DateTimeFormat(…, timeZone)`
formatter is the abstract zone primitive: formatting an epoch in a zone
yields the UTC fields of `epoch + off(epoch) * 60000`, where
`off : Int → Int` gives the zone's UTC offset in minutes at each instant
(the spec's `zoneOffsetMinutes` contract, §4.1). -/

/-- Wall-clock fields as produced by the platform formatter. -/
structure WallClock where
  year : Int
  month : Int
  day : Int
  hour : Int
  minute : Int
  second : Int
deriving Repr, DecidableEq

/-- UTC fields of an epoch (milliseconds); seconds truncate downward. -/
def utcFieldsOfEpoch (ms : Int) : WallClock :=
  let totalSec := ms / 1000
  let day := totalSec / 86400
  let sod := totalSec % 86400
  let c := civilFromEpochDay day
  { year := c.1, month := c.2.1, day := c.2.2
    hour := sod / 3600, minute := sod % 3600 / 60, second := sod % 60 }

/-- Milliseconds of `Date.UTC(y, M-1, d, h, mi, s)`. -/
def dateUTCms (y M d h mi s : Int) : Int :=
  jsDateDayFromYMD y M d * 86400000 + h * 3600000 + mi * 60000 + s * 1000

/-- The platform formatter's output for epoch `e` in a zone modelled by
`off`. -/
def wallFields (off : Int → Int) (e : Int) : WallClock :=
  utcFieldsOfEpoch (e + off e * 60000)

/-- The code's `#getOffsetMinutes(tz, epochMs)`: format the epoch in the
zone, reinterpret the wall fields as UTC, divide the difference by 60000. -/
def getOffsetMinutes (off : Int → Int) (e : Int) : Int :=
  let p := wallFields off e
  (dateUTCms p.year p.month p.day p.hour p.minute p.second - e) / 60000

/-- The fixed-point iteration of `#localToEpoch` (at most 4 refinements). -/
def localToEpochLoop (off : Int → Int) (guess : Int) :
    Nat → Int → Int → Int
  | 0, _, epoch => epoch
  | Nat.succ n, o, epoch =>
    let noff := getOffsetMinutes off epoch
    if noff = o then epoch
    else localToEpochLoop off guess n noff (guess - noff * 60000)

/-- The code's `#localToEpoch(tz, y, M, d, h, m, s)`: take the fields as if
UTC, correct by the offset, iterate, and fall one hour forward if the
result does not format back to the requested fields (DST-gap policy). -/
def localToEpoch (off : Int → Int) (y M d h mi s : Int) : Int :=
  let guess := dateUTCms y M d h mi s
  let o0 := getOffsetMinutes off guess
  let e0 := guess - o0 * 60000
  let e1 := localToEpochLoop off guess 4 o0 e0
  if wallFields off e1 = { year := y, month := M, day := d,
                           hour := h, minute := mi, second := s } then e1
  else e1 + 3600000

/-- Padding `String(n).padStart(w, '0')`. -/
def padZeros (w : Nat) (s : String) : String :=
  if s.length < w then String.mk (List.replicate (w - s.length) '0') ++ s
  else s

/-- Two-digit zero-padded rendering of an integer. -/
def pad2 (n : Int) : String := padZeros 2 (toString n)

/-- The code's `#toISOWithOffset(tz, y, M, d, h, m, s)`:
`YYYY-MM-DDTHH:MM:SS±HH:MM` with the zone offset at the computed epoch. -/
def toISOWithOffset (off : Int → Int) (y M d h mi s : Int) : String :=
  let epoch := localToEpoch off y M d h mi s
  let o := getOffsetMinutes off epoch
  let sign := if o ≥ 0 then "+" else "-"
  let a := if o ≥ 0 then o else -o
  let oh := padZeros 2 (toString (a / 60))
  let om := padZeros 2 (toString (Int.tmod a 60))
  padZeros 4 (toString y) ++ "-" ++ pad2 M ++ "-" ++ pad2 d ++ "T" ++
    pad2 h ++ ":" ++ pad2 mi ++ ":" ++ pad2 s ++ sign ++ oh ++ ":" ++ om

/- ### Event projector (`#emit`). -/

/-- The payload carried by the emitted `input`/`change` events. -/
structure Payload where
  dateStart : String
  dateEnd : String
  timeStart : String
  timeEnd : String
  timeZone : String
  crossesMidnight : Bool
  timeStartMinutes : Int
  timeEndMinutes : Int
  rangeStartDateTimeISO : String
  rangeEndDateTimeISO : String
deriving Repr, DecidableEq

/-- The code's `#fmtDateISO` (`YYYY-MM-DD`; the year is not padded). -/
def fmtDateISO (day : Int) : String :=
  let c := civilFromEpochDay day
  toString c.1 ++ "-" ++ pad2 c.2.1 ++ "-" ++ pad2 c.2.2

/-- The `HH:MM:SS` rendering of minute-of-day `t` (seconds always `00`),
as built by `#emit` from `#minToHMS`. -/
def fmtHMS (t : Int) : String :=
  pad2 (t / 60) ++ ":" ++ pad2 (Int.tmod t 60) ++ ":" ++ pad2 0

/-- The code's `#toISOWithOffset` applied to a day number at minute-of-day `t`
(the combination `#emit` performs). -/
def isoOfDayTime (off : Int → Int) (day t : Int) : String :=
  let c := civilFromEpochDay day
  toISOWithOffset off c.1 c.2.1 c.2.2 (t / 60) (Int.tmod t 60) 0

/-- The code's `#emit`, as a pure function of the state; `zones` maps a
zone identifier to its offset model (the platform primitive). -/
def emit (zones : String → Int → Int) (S : PickerState) : Payload :=
  let off := zones S.timeZone
  let dS := idxToDate S.minDate S.dateStart
  let dE := idxToDate S.minDate S.dateEnd
  let crossesMidnight : Bool := decide (S.timeEnd < S.timeStart)
  let endDateForRange := dE + (if crossesMidnight then 1 else 0)
  { dateStart := fmtDateISO dS
    dateEnd := fmtDateISO dE
    timeStart := fmtHMS S.timeStart
    timeEnd := fmtHMS S.timeEnd
    timeZone := S.timeZone
    crossesMidnight := crossesMidnight
    timeStartMinutes := S.timeStart
    timeEndMinutes := S.timeEnd
    rangeStartDateTimeISO := isoOfDayTime off dS S.timeStart
    rangeEndDateTimeISO := isoOfDayTime off endDateForRange S.timeEnd }

/-- Modelled from the spec: the platform zone-offset primitive for the zone
`"UTC"` — offset 0 at every instant (spec §4.1; the primitive itself is a
platform service outside the source). -/
def utcOffset : Int → Int := fun _ => 0

/-- A zone family mapping every identifier to the UTC offset model
(sufficient for scenarios whose state zone is `"UTC"`). -/
def utcZones : String → Int → Int := fun _ => utcOffset

/- ### Concrete states used by witnesses and counterexamples. -/

/-- A state with the source's initial `#state` literals (`timeStart` 22:00,
`timeEnd` 06:00, `timeStep` 15, `dateStepDays` 1, zone `"UTC"`); the
not-yet-initialized `minDate`/`maxDate` are taken as day 0. -/
def baseState : PickerState :=
  { minDate := 0, maxDate := 0
    dateMin := 0, dateMax := 0, dateStart := 0, dateEnd := 0, dateStepDays := 1
    timeMin := 0, timeMax := 1439, timeStart := 1320, timeEnd := 360
    timeStep := 15, timeZone := "UTC" }

/-- The spec's EventProjector scenario state: `minDate` = 2026-02-01,
selection 2026-02-01 … 2026-02-28 (indexes 0 and 27), 22:00 → 06:00,
zone `"UTC"`. -/
def scenarioState : PickerState :=
  { minDate := epochDayFromCivil 2026 2 1
    maxDate := epochDayFromCivil 2026 2 28
    dateMin := 0, dateMax := 27, dateStart := 0, dateEnd := 27
    dateStepDays := 1
    timeMin := 0, timeMax := 1439, timeStart := 1320, timeEnd := 360
    timeStep := 15, timeZone := "UTC" }

/- ### Helper lemmas shared by the claim proofs. -/

theorem ratFloor_eq_floor (q : ℚ) : Rat.floor q = ⌊q⌋ :=
  (Rat.floor_def' q).trans Rat.floor_def.symm

theorem jsRoundQ_intCast (n : Int) : jsRoundQ (n : ℚ) = n := by
  unfold jsRoundQ
  rw [ratFloor_eq_floor, Int.floor_eq_iff]
  constructor
  · linarith
  · linarith

theorem jsWrap1440_eq_emod (v : Int) : jsWrap1440 v = v % 1440 := by
  unfold jsWrap1440
  rcases le_or_lt 0 v with hv | hv
  · rw [Int.tmod_eq_emod hv (by norm_num)]
    have h0 : 0 ≤ v % 1440 := Int.emod_nonneg v (by norm_num)
    rw [Int.tmod_eq_emod (by omega) (by norm_num)]
    omega
  · have hneg : Int.tmod v 1440 = -(Int.tmod (-v) 1440) := by
      rw [Int.tmod_def, Int.tmod_def, Int.neg_tdiv]; ring
    have he : Int.tmod (-v) 1440 = (-v) % 1440 :=
      Int.tmod_eq_emod (by omega) (by norm_num)
    have h0 : 0 ≤ (-v) % 1440 := Int.emod_nonneg (-v) (by norm_num)
    have h1 : (-v) % 1440 < 1440 := Int.emod_lt_of_pos (-v) (by norm_num)
    rw [hneg, he, Int.tmod_eq_emod (by omega) (by norm_num)]
    omega

theorem jsWrap1440_nonneg (v : Int) : 0 ≤ jsWrap1440 v := by
  rw [jsWrap1440_eq_emod]; exact Int.emod_nonneg v (by norm_num)

theorem jsWrap1440_lt (v : Int) : jsWrap1440 v < 1440 := by
  rw [jsWrap1440_eq_emod]; exact Int.emod_lt_of_pos v (by norm_num)

theorem snapToStep_nonneg (v step : Int) (hs : 1 ≤ step) (hv : 0 ≤ v) :
    0 ≤ snapToStep v step := by
  unfold snapToStep jsRoundDiv
  exact mul_nonneg (Int.ediv_nonneg (by omega) (by omega)) (by omega)

theorem snapToStep_mono (v w step : Int) (hs : 1 ≤ step) (h : v ≤ w) :
    snapToStep v step ≤ snapToStep w step := by
  unfold snapToStep jsRoundDiv
  have hd := Int.ediv_le_ediv (show (0 : Int) < 2 * step by omega)
    (show 2 * v + step ≤ 2 * w + step by omega)
  exact mul_le_mul_of_nonneg_right hd (by omega)

theorem snapToStep_dvd (v step : Int) : step ∣ snapToStep v step :=
  ⟨jsRoundDiv v step, mul_comm (jsRoundDiv v step) step⟩

theorem snapToStep_self_of_dvd (m step : Int) (hs : 1 ≤ step) (h : step ∣ m) :
    snapToStep m step = m := by
  obtain ⟨k, rfl⟩ := h
  unfold snapToStep jsRoundDiv
  rw [show 2 * (step * k) + step = step * (2 * k + 1) by ring,
      show (2 : Int) * step = step * 2 by ring,
      Int.mul_ediv_mul_of_pos _ _ (by omega)]
  rw [show (2 * k + 1) / 2 = k by omega]
  ring

theorem le_jsCeilDiv_mul (p q : Int) (hq : 1 ≤ q) : p ≤ jsCeilDiv p q * q := by
  unfold jsCeilDiv
  have h := Int.ediv_mul_le (-p) (show q ≠ 0 by omega)
  rw [neg_mul]
  linarith

theorem jsCeilDiv_mul_nonpos (p q : Int) (hq : 1 ≤ q) (hp : p ≤ 0) :
    jsCeilDiv p q * q ≤ 0 := by
  unfold jsCeilDiv
  have h0 : 0 ≤ (-p) / q := Int.ediv_nonneg (by omega) (by omega)
  have h1 : 0 ≤ (-p) / q * q := mul_nonneg h0 (by omega)
  rw [neg_mul]
  linarith

theorem ediv_mul_le_self (p q : Int) (hq : 1 ≤ q) : p / q * q ≤ p :=
  Int.ediv_mul_le p (by omega)

theorem ediv_mul_nonneg (p q : Int) (hq : 1 ≤ q) (hp : 0 ≤ p) : 0 ≤ p / q * q :=
  mul_nonneg (Int.ediv_nonneg hp (by omega)) (by omega)

theorem jsClamp_le (lo hi v : Int) (h : lo ≤ hi) : jsClamp lo hi v ≤ hi := by
  unfold jsClamp; omega

theorem le_jsClamp (lo hi v : Int) : lo ≤ jsClamp lo hi v := by
  unfold jsClamp; omega

theorem clampAndSyncDates_fields (S : PickerState) :
    (clampAndSyncDates S).dateStart =
      min (snapToStep (jsClamp S.dateMin S.dateMax S.dateStart) S.dateStepDays)
        (snapToStep (jsClamp S.dateMin S.dateMax S.dateEnd) S.dateStepDays) ∧
    (clampAndSyncDates S).dateEnd =
      max (snapToStep (jsClamp S.dateMin S.dateMax S.dateStart) S.dateStepDays)
        (snapToStep (jsClamp S.dateMin S.dateMax S.dateEnd) S.dateStepDays) := by
  unfold clampAndSyncDates
  dsimp only []
  split
  · constructor <;> simp <;> omega
  · constructor <;> simp <;> omega

/- ### Claim C1 -/

/-- C1 counterexample: with the source's own defaults (`timeStep = 15`,
`timeMax = 1439`), `#clampAndSyncTimes` snaps a stored `timeEnd` of 1439 to
`Math.round(1439/15)*15 = 1440`, which lies outside `[0, 1439]` — refuting
the claimed invariant `timeStart, timeEnd ≤ 1439` after `clampTimes`. -/
theorem c1_counterexample :
    (clampAndSyncTimes { baseState with timeEnd := 1439 }).timeEnd = 1440 ∧
    ¬ (clampAndSyncTimes { baseState with timeEnd := 1439 }).timeEnd ≤ 1439 := by
  constructor
  · decide
  · decide

/-- C1 (amended): in every state with `dateMin = 0 ≤ dateMax`,
`timeMin = 0`, `timeMax = 1439` and positive steps, after `clampDates` the
selection satisfies `0 ≤ dateStart ≤ dateEnd`, both endpoints are exact
multiples of `dateStepDays`, and both are bounded by the *nearest multiple
of `dateStepDays` to `dateMax`* (so by `dateMax` itself exactly when
`dateStepDays` divides `dateMax`); after `clampTimes` both time endpoints
are nonnegative multiples of `timeStep` bounded by the nearest multiple of
`timeStep` to 1439, and the pair is never reordered (each endpoint is
clamped and snapped independently). -/
theorem c1_clamp_snap_invariants (S : PickerState)
    (hdm : S.dateMin = 0) (hdx : 0 ≤ S.dateMax)
    (htm : S.timeMin = 0) (htx : S.timeMax = 1439)
    (hds : 1 ≤ S.dateStepDays) (hts : 1 ≤ S.timeStep) :
    (0 ≤ (clampAndSyncDates S).dateStart ∧
     (clampAndSyncDates S).dateStart ≤ (clampAndSyncDates S).dateEnd ∧
     (clampAndSyncDates S).dateEnd ≤ snapToStep S.dateMax S.dateStepDays ∧
     S.dateStepDays ∣ (clampAndSyncDates S).dateStart ∧
     S.dateStepDays ∣ (clampAndSyncDates S).dateEnd ∧
     (S.dateStepDays ∣ S.dateMax → (clampAndSyncDates S).dateEnd ≤ S.dateMax)) ∧
    (0 ≤ (clampAndSyncTimes S).timeStart ∧
     (clampAndSyncTimes S).timeStart ≤ snapToStep 1439 S.timeStep ∧
     0 ≤ (clampAndSyncTimes S).timeEnd ∧
     (clampAndSyncTimes S).timeEnd ≤ snapToStep 1439 S.timeStep ∧
     S.timeStep ∣ (clampAndSyncTimes S).timeStart ∧
     S.timeStep ∣ (clampAndSyncTimes S).timeEnd ∧
     (clampAndSyncTimes S).timeStart =
       snapToStep (jsClamp 0 1439 S.timeStart) S.timeStep ∧
     (clampAndSyncTimes S).timeEnd =
       snapToStep (jsClamp 0 1439 S.timeEnd) S.timeStep) := by
  obtain ⟨hfs, hfe⟩ := clampAndSyncDates_fields S
  set cs := jsClamp S.dateMin S.dateMax S.dateStart with hcs
  set ce := jsClamp S.dateMin S.dateMax S.dateEnd with hce
  have hcs0 : 0 ≤ cs := hdm ▸ le_jsClamp S.dateMin S.dateMax S.dateStart
  have hce0 : 0 ≤ ce := hdm ▸ le_jsClamp S.dateMin S.dateMax S.dateEnd
  have hcsM : cs ≤ S.dateMax := by rw [hcs, hdm]; exact jsClamp_le 0 S.dateMax _ hdx
  have hceM : ce ≤ S.dateMax := by rw [hce, hdm]; exact jsClamp_le 0 S.dateMax _ hdx
  have hss0 : 0 ≤ snapToStep cs S.dateStepDays := snapToStep_nonneg _ _ hds hcs0
  have hse0 : 0 ≤ snapToStep ce S.dateStepDays := snapToStep_nonneg _ _ hds hce0
  have hssM : snapToStep cs S.dateStepDays ≤ snapToStep S.dateMax S.dateStepDays :=
    snapToStep_mono _ _ _ hds hcsM
  have hseM : snapToStep ce S.dateStepDays ≤ snapToStep S.dateMax S.dateStepDays :=
    snapToStep_mono _ _ _ hds hceM
  have hdvds : S.dateStepDays ∣ snapToStep cs S.dateStepDays := snapToStep_dvd _ _
  have hdvde : S.dateStepDays ∣ snapToStep ce S.dateStepDays := snapToStep_dvd _ _
  constructor
  · refine ⟨by omega, by omega, by omega, ?_, ?_, ?_⟩
    · rw [hfs]
      rcases min_cases (snapToStep cs S.dateStepDays) (snapToStep ce S.dateStepDays) with
        ⟨hm, _⟩ | ⟨hm, _⟩ <;> rw [hm] <;> assumption
    · rw [hfe]
      rcases max_cases (snapToStep cs S.dateStepDays) (snapToStep ce S.dateStepDays) with
        ⟨hm, _⟩ | ⟨hm, _⟩ <;> rw [hm] <;> assumption
    · intro hdvdmax
      have := snapToStep_self_of_dvd S.dateMax S.dateStepDays hds hdvdmax
      omega
  · have hts0 : (clampAndSyncTimes S).timeStart =
        snapToStep (jsClamp 0 1439 S.timeStart) S.timeStep := by
      unfold clampAndSyncTimes
      rw [htm, htx]
    have hte0 : (clampAndSyncTimes S).timeEnd =
        snapToStep (jsClamp 0 1439 S.timeEnd) S.timeStep := by
      unfold clampAndSyncTimes
      rw [htm, htx]
    have h1 : 0 ≤ snapToStep (jsClamp 0 1439 S.timeStart) S.timeStep :=
      snapToStep_nonneg _ _ hts (le_jsClamp 0 1439 S.timeStart)
    have h2 : 0 ≤ snapToStep (jsClamp 0 1439 S.timeEnd) S.timeStep :=
      snapToStep_nonneg _ _ hts (le_jsClamp 0 1439 S.timeEnd)
    have h3 : snapToStep (jsClamp 0 1439 S.timeStart) S.timeStep ≤
        snapToStep 1439 S.timeStep :=
      snapToStep_mono _ _ _ hts (jsClamp_le 0 1439 S.timeStart (by norm_num))
    have h4 : snapToStep (jsClamp 0 1439 S.timeEnd) S.timeStep ≤
        snapToStep 1439 S.timeStep :=
      snapToStep_mono _ _ _ hts (jsClamp_le 0 1439 S.timeEnd (by norm_num))
    refine ⟨by omega, by omega, by omega, by omega, ?_, ?_, hts0, hte0⟩
    · rw [hts0]; exact snapToStep_dvd _ _
    · rw [hte0]; exact snapToStep_dvd _ _

/-- C1 witness: the amended theorem applied to the source's initial state. -/
theorem c1_clamp_snap_invariants_witness :
    baseState.dateMin = 0 ∧ (1 : Int) ≤ baseState.timeStep ∧
    0 ≤ (clampAndSyncTimes baseState).timeStart :=
  ⟨by decide, by decide,
    (c1_clamp_snap_invariants baseState (by decide) (by decide) (by decide)
      (by decide) (by decide) (by decide)).2.1⟩

/- ### Claim C2 -/

/-- C2: for a pre-drag snapshot `dateMin ≤ a ≤ b ≤ dateMax` with both
endpoints multiples of the step, the date-track drag clamps the
step-rounded shift into `[⌈(dateMin−a)/step⌉·step, ⌊(dateMax−b)/step⌋·step]`
and applies it to both endpoints, so neither endpoint leaves
`[dateMin, dateMax]`; a zero raw shift leaves the selection unchanged. -/
theorem c2_date_drag_clamped (a b lo hi step rawShift : Int)
    (hstep : 1 ≤ step) (hla : lo ≤ a) (hab : a ≤ b) (hbh : b ≤ hi)
    (hdva : step ∣ a) (hdvb : step ∣ b) :
    jsCeilDiv (lo - a) step * step ≤ dateTrackShift a b lo hi step rawShift ∧
    dateTrackShift a b lo hi step rawShift ≤ (hi - b) / step * step ∧
    dateDragApply a b lo hi step rawShift =
      (a + dateTrackShift a b lo hi step rawShift,
       b + dateTrackShift a b lo hi step rawShift) ∧
    lo ≤ a + dateTrackShift a b lo hi step rawShift ∧
    b + dateTrackShift a b lo hi step rawShift ≤ hi ∧
    dateDragApply a b lo hi step 0 = (a, b) := by
  have hshape : ∀ r : Int, dateTrackShift a b lo hi step r =
      max (jsCeilDiv (lo - a) step * step)
        (min ((hi - b) / step * step) (snapToStep r step)) := by
    intro r; rfl
  have h1 : lo - a ≤ jsCeilDiv (lo - a) step * step := le_jsCeilDiv_mul _ _ hstep
  have h2 : jsCeilDiv (lo - a) step * step ≤ 0 :=
    jsCeilDiv_mul_nonpos _ _ hstep (by omega)
  have h3 : (hi - b) / step * step ≤ hi - b := ediv_mul_le_self _ _ hstep
  have h4 : 0 ≤ (hi - b) / step * step := ediv_mul_nonneg _ _ hstep (by omega)
  have hzero : snapToStep 0 step = 0 := by
    unfold snapToStep jsRoundDiv
    rw [show 2 * (0 : Int) + step = step by ring,
        Int.ediv_eq_zero_of_lt (by omega) (by omega)]
    ring
  have happly : ∀ r : Int, dateDragApply a b lo hi step r =
      (a + dateTrackShift a b lo hi step r, b + dateTrackShift a b lo hi step r) := by
    intro r; rfl
  refine ⟨?_, ?_, happly rawShift, ?_, ?_, ?_⟩
  · rw [hshape]
    generalize jsCeilDiv (lo - a) step * step = u at *
    generalize (hi - b) / step * step = w at *
    omega
  · rw [hshape]
    generalize jsCeilDiv (lo - a) step * step = u at *
    generalize (hi - b) / step * step = w at *
    omega
  · rw [hshape]
    generalize jsCeilDiv (lo - a) step * step = u at *
    generalize (hi - b) / step * step = w at *
    omega
  · rw [hshape]
    generalize jsCeilDiv (lo - a) step * step = u at *
    generalize (hi - b) / step * step = w at *
    omega
  · rw [happly 0, hshape 0, hzero]
    generalize jsCeilDiv (lo - a) step * step = u at *
    generalize (hi - b) / step * step = w at *
    have : max u (min w 0) = 0 := by omega
    rw [this]
    norm_num

/-- C2 witness: the drag theorem at a concrete snapshot. -/
theorem c2_date_drag_clamped_witness :
    (1 : Int) ≤ 2 ∧ (0 : Int) ≤ 2 ∧ (2 : Int) ≤ 4 ∧ (4 : Int) ≤ 10 ∧
    (2 : Int) ∣ 2 ∧ (2 : Int) ∣ 4 ∧
    (0 : Int) ≤ 2 + dateTrackShift 2 4 0 10 2 100 :=
  ⟨by decide, by decide, by decide, by decide, by decide, by decide,
    (c2_date_drag_clamped 2 4 0 10 2 100 (by decide) (by decide) (by decide)
      (by decide) (by decide) (by decide)).2.2.2.1⟩

/- ### Claim C3 -/

/-- C3: the time-track drag applies no clamping — it sets the selection to
`(wrap (a + s), wrap (b + s))` where `s` is the step-rounded shift and
`wrap x = ((x mod 1440) + 1440) mod 1440` (equivalently the Euclidean
remainder modulo 1440, always in `[0, 1439]`); in particular shifting
`(1320, 360)` by +120 minutes yields `(0, 480)`, for which
`crossesMidnight` (`timeEnd < timeStart`) is false. -/
theorem c3_time_drag_wrap :
    (∀ a b step rawShift : Int,
      timeDragApply a b step rawShift =
        (jsWrap1440 (a + snapToStep rawShift step),
         jsWrap1440 (b + snapToStep rawShift step)) ∧
      (timeDragApply a b step rawShift).1 =
        (a + snapToStep rawShift step) % 1440 ∧
      (timeDragApply a b step rawShift).2 =
        (b + snapToStep rawShift step) % 1440 ∧
      0 ≤ (timeDragApply a b step rawShift).1 ∧
      (timeDragApply a b step rawShift).1 ≤ 1439 ∧
      0 ≤ (timeDragApply a b step rawShift).2 ∧
      (timeDragApply a b step rawShift).2 ≤ 1439) ∧
    timeDragApply 1320 360 15 120 = (0, 480) ∧
    ¬ (timeDragApply 1320 360 15 120).2 < (timeDragApply 1320 360 15 120).1 := by
  refine ⟨?_, by decide, by decide⟩
  intro a b step rawShift
  have hp : timeDragApply a b step rawShift =
      (jsWrap1440 (a + snapToStep rawShift step),
       jsWrap1440 (b + snapToStep rawShift step)) := rfl
  rw [hp]
  refine ⟨rfl, ?_, ?_, ?_, ?_, ?_, ?_⟩
  · exact jsWrap1440_eq_emod _
  · exact jsWrap1440_eq_emod _
  · exact jsWrap1440_nonneg _
  · have := jsWrap1440_lt (a + snapToStep rawShift step); omega
  · exact jsWrap1440_nonneg _
  · have := jsWrap1440_lt (b + snapToStep rawShift step); omega

/- ### Claim C10 -/

theorem wrap_shift_width (x y s : Int) :
    (jsWrap1440 (y + s) - jsWrap1440 (x + s)) % 1440 = (y - x) % 1440 := by
  rw [jsWrap1440_eq_emod, jsWrap1440_eq_emod]
  omega

/-- C10: every whole-window gesture preserves the selection width — the
date-track drag and the date recenter leave `dateEnd − dateStart`
unchanged, and the time-track drag and the time recenter leave the
wrap-aware width `(timeEnd − timeStart) mod 1440` unchanged. -/
theorem c10_width_preserved :
    (∀ a b lo hi step rawShift : Int,
      (dateDragApply a b lo hi step rawShift).2 -
        (dateDragApply a b lo hi step rawShift).1 = b - a) ∧
    (∀ a b step rawShift : Int,
      ((timeDragApply a b step rawShift).2 -
        (timeDragApply a b step rawShift).1) % 1440 = (b - a) % 1440) ∧
    (∀ (S : PickerState) (frac : ℚ),
      (recenterDateAt S frac).dateEnd - (recenterDateAt S frac).dateStart =
        S.dateEnd - S.dateStart) ∧
    (∀ (S : PickerState) (frac : ℚ),
      ((recenterTimeAt S frac).timeEnd - (recenterTimeAt S frac).timeStart) % 1440 =
        (S.timeEnd - S.timeStart) % 1440) := by
  refine ⟨?_, ?_, ?_, ?_⟩
  · intro a b lo hi step rawShift
    have hp : dateDragApply a b lo hi step rawShift =
        (a + dateTrackShift a b lo hi step rawShift,
         b + dateTrackShift a b lo hi step rawShift) := rfl
    rw [hp]
    dsimp only
    ring
  · intro a b step rawShift
    exact wrap_shift_width a b (snapToStep rawShift step)
  · intro S frac
    unfold recenterDateAt
    dsimp only
    ring
  · intro S frac
    exact wrap_shift_width S.timeStart S.timeEnd _

/- ### Claim C4 -/

set_option maxRecDepth 100000 in
/-- C4: for every state, the emitted payload has
`crossesMidnight = (timeEnd < timeStart)`; its start timestamp combines the
start date with the start time and its end timestamp combines the end date
— advanced by exactly one day when `crossesMidnight`, unchanged otherwise —
with the end time, both via `#toISOWithOffset`.  In the concrete scenario
(zone `"UTC"`, selection 2026-02-01 … 2026-02-28, 22:00 → 06:00) the payload
has `crossesMidnight = true`,
`rangeStartDateTimeISO = "2026-02-01T22:00:00+00:00"` and
`rangeEndDateTimeISO = "2026-03-01T06:00:00+00:00"`. -/
theorem c4_emit_payload :
    (∀ (zones : String → Int → Int) (S : PickerState),
      (emit zones S).crossesMidnight = decide (S.timeEnd < S.timeStart) ∧
      (emit zones S).rangeStartDateTimeISO =
        isoOfDayTime (zones S.timeZone) (idxToDate S.minDate S.dateStart)
          S.timeStart ∧
      (emit zones S).rangeEndDateTimeISO =
        isoOfDayTime (zones S.timeZone)
          (idxToDate S.minDate S.dateEnd +
            (if (emit zones S).crossesMidnight then 1 else 0)) S.timeEnd) ∧
    (emit utcZones scenarioState).dateStart = "2026-02-01" ∧
    (emit utcZones scenarioState).dateEnd = "2026-02-28" ∧
    (emit utcZones scenarioState).crossesMidnight = true ∧
    (emit utcZones scenarioState).rangeStartDateTimeISO =
      "2026-02-01T22:00:00+00:00" ∧
    (emit utcZones scenarioState).rangeEndDateTimeISO =
      "2026-03-01T06:00:00+00:00" := by
  refine ⟨?_, by decide, by decide, by decide, by decide, by decide⟩
  intro zones S
  exact ⟨rfl, rfl, rfl⟩

/- ### Claim C5 -/

theorem jsClamp_idem (lo hi v : Int) : jsClamp lo hi (jsClamp lo hi v) = jsClamp lo hi v := by
  unfold jsClamp; omega

theorem snapToStep_one (v : Int) : snapToStep v 1 = v := by
  unfold snapToStep jsRoundDiv; omega

/-- C5 counterexample: with the source's default `timeStep = 15`, the
`timeRange` setter at inputs `(4, 3)` stores `(0, 0)` — not the
rounded-and-clamped values `(4, 3)` — and the stored pair does not cross
midnight although the rounded-and-clamped inputs do (`3 < 4`), refuting
both the "stores each value rounded and clamped" and the "wrap preserved
as-is" parts of the claim. -/
theorem c5_counterexample :
    (setTimeRange baseState ((4 : Int) : ℚ) ((3 : Int) : ℚ)).timeStart = 0 ∧
    (setTimeRange baseState ((4 : Int) : ℚ) ((3 : Int) : ℚ)).timeEnd = 0 ∧
    jsClamp 0 1439 (jsRoundQ ((4 : Int) : ℚ)) = 4 ∧
    jsClamp 0 1439 (jsRoundQ ((3 : Int) : ℚ)) = 3 ∧
    ¬ (setTimeRange baseState ((4 : Int) : ℚ) ((3 : Int) : ℚ)).timeEnd <
        (setTimeRange baseState ((4 : Int) : ℚ) ((3 : Int) : ℚ)).timeStart ∧
    jsClamp 0 1439 (jsRoundQ ((3 : Int) : ℚ)) <
      jsClamp 0 1439 (jsRoundQ ((4 : Int) : ℚ)) := by
  have h : setTimeRange baseState ((4 : Int) : ℚ) ((3 : Int) : ℚ) =
      clampAndSyncTimes { baseState with timeStart := 4, timeEnd := 3 } := by
    unfold setTimeRange
    rw [jsRoundQ_intCast, jsRoundQ_intCast]
    decide
  rw [h, jsRoundQ_intCast, jsRoundQ_intCast]
  refine ⟨by decide, by decide, by decide, by decide, by decide, by decide⟩

/-- C5 (amended): with the fixed bounds `timeMin = 0`, `timeMax = 1439`,
the `timeRange` setter stores each input rounded to the nearest integer,
clamped into `[0, 1439]`, **and then snapped to the nearest multiple of
`timeStep`**; it never forces an ordering on the pair, and the stored
pair's midnight-wrap relationship is that of the snapped values — exactly
the wrap relationship of the rounded-and-clamped inputs whenever
`timeStep = 1`. -/
theorem c5_time_range_setter (S : PickerState) (vs ve : ℚ)
    (htm : S.timeMin = 0) (htx : S.timeMax = 1439) :
    (setTimeRange S vs ve).timeStart =
      snapToStep (jsClamp 0 1439 (jsRoundQ vs)) S.timeStep ∧
    (setTimeRange S vs ve).timeEnd =
      snapToStep (jsClamp 0 1439 (jsRoundQ ve)) S.timeStep ∧
    ((setTimeRange S vs ve).timeEnd < (setTimeRange S vs ve).timeStart ↔
      snapToStep (jsClamp 0 1439 (jsRoundQ ve)) S.timeStep <
        snapToStep (jsClamp 0 1439 (jsRoundQ vs)) S.timeStep) ∧
    (S.timeStep = 1 →
      (setTimeRange S vs ve).timeStart = jsClamp 0 1439 (jsRoundQ vs) ∧
      (setTimeRange S vs ve).timeEnd = jsClamp 0 1439 (jsRoundQ ve) ∧
      ((setTimeRange S vs ve).timeEnd < (setTimeRange S vs ve).timeStart ↔
        jsClamp 0 1439 (jsRoundQ ve) < jsClamp 0 1439 (jsRoundQ vs))) := by
  have hs : (setTimeRange S vs ve).timeStart =
      snapToStep (jsClamp 0 1439 (jsRoundQ vs)) S.timeStep := by
    unfold setTimeRange clampAndSyncTimes
    dsimp only
    rw [htm, htx, jsClamp_idem]
  have he : (setTimeRange S vs ve).timeEnd =
      snapToStep (jsClamp 0 1439 (jsRoundQ ve)) S.timeStep := by
    unfold setTimeRange clampAndSyncTimes
    dsimp only
    rw [htm, htx, jsClamp_idem]
  refine ⟨hs, he, by rw [hs, he], ?_⟩
  intro h1
  rw [hs, he, h1, snapToStep_one, snapToStep_one]
  exact ⟨rfl, rfl, Iff.rfl⟩

/-- C5 witness: the amended setter theorem at concrete inputs. -/
theorem c5_time_range_setter_witness :
    baseState.timeMin = 0 ∧ baseState.timeMax = 1439 ∧
    (setTimeRange baseState ((100 : Int) : ℚ) ((200 : Int) : ℚ)).timeStart =
      snapToStep (jsClamp 0 1439 (jsRoundQ ((100 : Int) : ℚ))) baseState.timeStep :=
  ⟨by decide, by decide,
    (c5_time_range_setter baseState ((100 : Int) : ℚ) ((200 : Int) : ℚ)
      (by decide) (by decide)).1⟩

/- ### Claim C6 -/

/-- C6: provided the zone's midnight offsets never differ by 12 hours or
more between two days (true of DST shifts, which `#daysBetween`'s
`Math.round` is there to cancel), date indexing round-trips exactly:
`indexToDate(minDate, dateToIndex(minDate, d)) = d` for every date
`d ≥ minDate`, `dateToIndex(minDate, indexToDate(minDate, idx)) = idx`
for every index `idx ≥ 0`, and for `minDate ≤ maxDate` the derived bound
`dateMax = daysBetween(minDate, maxDate)` is exact and nonnegative. -/
theorem c6_date_index_roundtrip (off : Int → Int) (minD maxD d idx : Int)
    (hoff : ∀ i j : Int, off i - off j ≤ 719 ∧ off j - off i ≤ 719)
    (hd : minD ≤ d) (hidx : 0 ≤ idx) (hmx : minD ≤ maxD) :
    idxToDate minD (dateToIdx off minD d) = d ∧
    dateToIdx off minD (idxToDate minD idx) = idx ∧
    0 ≤ daysBetween off minD maxD ∧
    daysBetween off minD maxD = maxD - minD := by
  have key : ∀ a b : Int, daysBetween off a b = b - a := by
    intro a b
    have h := hoff a b
    unfold daysBetween midnightMs jsRoundDiv
    omega
  refine ⟨?_, ?_, ?_, ?_⟩
  · unfold idxToDate dateToIdx
    rw [key]
    ring
  · unfold dateToIdx idxToDate
    rw [key]
    ring
  · rw [key]; omega
  · rw [key]

/-- C6 witness: the round-trip theorem in a fixed-offset zone. -/
theorem c6_date_index_roundtrip_witness :
    (100 : Int) ≤ 120 ∧ (0 : Int) ≤ 7 ∧ (100 : Int) ≤ 130 ∧
    idxToDate 100 (dateToIdx (fun _ => 0) 100 120) = 120 :=
  ⟨by decide, by decide, by decide,
    (c6_date_index_roundtrip (fun _ => 0) 100 130 120 7
      (fun i j => ⟨by norm_num, by norm_num⟩)
      (by decide) (by decide) (by decide)).1⟩

/- ### Claim C7 -/

/-- C7: whenever either date-bound attribute is absent or unparseable, or
the parsed min exceeds the parsed max, `#initDateBounds` substitutes
`maxDate = today` and `minDate = today − 30 days`, sets `dateMin = 0` and
`dateMax = daysBetween(minDate, maxDate) = 30`, and (being a total
function) surfaces no error to the caller.  The zone's midnight offsets
are assumed to differ by less than 12 hours between days. -/
theorem c7_bounds_default (off : Int → Int) (today : Int)
    (amin amax : Option String) (S : PickerState)
    (hoff : ∀ i j : Int, off i - off j ≤ 719 ∧ off j - off i ≤ 719)
    (h : coerceDateOnlyAttr amin = none ∨ coerceDateOnlyAttr amax = none ∨
      ∃ a b : Int, coerceDateOnlyAttr amin = some a ∧
        coerceDateOnlyAttr amax = some b ∧ b < a) :
    initDateBounds off today amin amax S =
      { S with minDate := today - 30, maxDate := today,
               dateMin := 0, dateMax := 30 } := by
  have key : daysBetween off (today - 30) today = 30 := by
    have hb := hoff (today - 30) today
    unfold daysBetween midnightMs jsRoundDiv
    omega
  rcases h with h1 | h1 | ⟨a, b, ha, hb, hlt⟩
  · simp only [initDateBounds, h1]
    cases hmx : coerceDateOnlyAttr amax <;> simp [key]
  · simp only [initDateBounds, h1]
    cases hmn : coerceDateOnlyAttr amin <;> simp [key]
  · have hms : midnightMs off a > midnightMs off b := by
      have hab := hoff a b
      unfold midnightMs
      omega
    simp only [initDateBounds, ha, hb]
    simp [hms, key]

/-- C7 witness: absent attributes yield the default 30-day window. -/
theorem c7_bounds_default_witness :
    coerceDateOnlyAttr none = none ∧
    initDateBounds (fun _ => 0) 20000 none none baseState =
      { baseState with minDate := 20000 - 30, maxDate := 20000,
                       dateMin := 0, dateMax := 30 } :=
  ⟨rfl, c7_bounds_default (fun _ => 0) 20000 none none baseState
    (fun i j => ⟨by norm_num, by norm_num⟩) (Or.inl rfl)⟩

/- ### Claim C8 -/

theorem chooseStepAux_min (td tg : Int) (l : List Int) :
    ∀ best : Int,
      (chooseStepAux td tg l best (tickDiff td tg best) = best ∨
       chooseStepAux td tg l best (tickDiff td tg best) ∈ l) ∧
      tickDiff td tg (chooseStepAux td tg l best (tickDiff td tg best)) ≤
        tickDiff td tg best ∧
      ∀ c ∈ l, tickDiff td tg (chooseStepAux td tg l best (tickDiff td tg best)) ≤
        tickDiff td tg c := by
  induction l with
  | nil =>
    intro best
    refine ⟨Or.inl rfl, le_refl _, ?_⟩
    intro c hc
    exact absurd hc (List.not_mem_nil c)
  | cons c rest ih =>
    intro best
    by_cases hc : tickDiff td tg c < tickDiff td tg best
    · have hred : chooseStepAux td tg (c :: rest) best (tickDiff td tg best) =
          chooseStepAux td tg rest c (tickDiff td tg c) := by
        simp only [chooseStepAux]
        rw [if_pos hc]
      obtain ⟨hm, hle, hall⟩ := ih c
      rw [hred]
      refine ⟨?_, le_trans hle (le_of_lt hc), ?_⟩
      · rcases hm with h | h
        · exact Or.inr (by rw [h]; exact List.mem_cons_self c rest)
        · exact Or.inr (List.mem_cons_of_mem c h)
      · intro x hx
        rcases List.mem_cons.mp hx with rfl | hx2
        · exact hle
        · exact hall x hx2
    · have hred : chooseStepAux td tg (c :: rest) best (tickDiff td tg best) =
          chooseStepAux td tg rest best (tickDiff td tg best) := by
        simp only [chooseStepAux]
        rw [if_neg hc]
      obtain ⟨hm, hle, hall⟩ := ih best
      rw [hred]
      refine ⟨?_, hle, ?_⟩
      · rcases hm with h | h
        · exact Or.inl h
        · exact Or.inr (List.mem_cons_of_mem c h)
      · intro x hx
        rcases List.mem_cons.mp hx with rfl | hx2
        · exact le_trans hle (not_lt.mp hc)
        · exact hall x hx2

set_option maxRecDepth 100000 in
/-- C8: for every `totalDays ≥ 1`, `#chooseDateTickStep(totalDays, 7)`
returns a member of the fixed candidate set
`{1, 2, 5, 7, 14, 30, 60, 90, 120, 180, 365}` minimizing
`|totalDays / candidate − 7|` over the whole set; in particular
`#chooseDateTickStep(365, 7) = 60`. -/
theorem c8_tick_step_minimizes (td : Int) (h : 1 ≤ td) :
    chooseDateTickStep td 7 ∈ tickCandidates ∧
    (∀ c ∈ tickCandidates, tickDiff td 7 (chooseDateTickStep td 7) ≤ tickDiff td 7 c) ∧
    chooseDateTickStep 365 7 = 60 := by
  obtain ⟨hm, hle, hall⟩ := chooseStepAux_min td 7 tickCandidates 1
  refine ⟨?_, ?_, ?_⟩
  · show chooseStepAux td 7 tickCandidates 1 (tickDiff td 7 1) ∈ tickCandidates
    rcases hm with h1 | h1
    · rw [h1]; decide
    · exact h1
  · intro c hc
    exact hall c hc
  · norm_num [chooseDateTickStep, chooseStepAux, tickCandidates, tickDiff, jsAbsQ]

/-- C8 witness: the minimization theorem at `totalDays = 365`. -/
theorem c8_tick_step_minimizes_witness :
    (1 : Int) ≤ 365 ∧ chooseDateTickStep 365 7 ∈ tickCandidates :=
  ⟨by decide, (c8_tick_step_minimizes 365 (by decide)).1⟩

/- ### Claim C9 -/

/-- C9 counterexample: the `timeZone` setter guards on JS truthiness
(`if (v)`), so the empty string — a perfectly good string — is *not*
stored: starting from zone `"UTC"`, setting `""` leaves `"UTC"` in place,
refuting "for every string z, the setter stores z unconditionally". -/
theorem c9_counterexample :
    (setTimeZone baseState "").timeZone = "UTC" ∧
    (setTimeZone baseState "").timeZone ≠ "" := by
  refine ⟨by decide, by decide⟩

set_option maxRecDepth 100000 in
/-- C9 (amended): for every **nonempty** string `z`, the `timeZone` setter
stores `z` unconditionally — no validation at the state layer — and the
stored zone is what every subsequent emission uses: the payload's
`timeZone` field is `z` and both combined timestamps are computed with
zone `z`'s offset model. -/
theorem c9_set_time_zone (S : PickerState) (z : String)
    (zones : String → Int → Int) (hz : z ≠ "") :
    (setTimeZone S z).timeZone = z ∧
    (emit zones (setTimeZone S z)).timeZone = z ∧
    (emit zones (setTimeZone S z)).rangeStartDateTimeISO =
      isoOfDayTime (zones z) (idxToDate S.minDate S.dateStart) S.timeStart ∧
    (emit zones (setTimeZone S z)).rangeEndDateTimeISO =
      isoOfDayTime (zones z)
        (idxToDate S.minDate S.dateEnd +
          (if S.timeEnd < S.timeStart then (1 : Int) else 0)) S.timeEnd := by
  have h : setTimeZone S z = { S with timeZone := z } := by
    unfold setTimeZone
    rw [if_neg hz]
  rw [h]
  refine ⟨rfl, rfl, rfl, ?_⟩
  show isoOfDayTime (zones z)
      (idxToDate S.minDate S.dateEnd +
        (if decide (S.timeEnd < S.timeStart) then (1 : Int) else 0)) S.timeEnd = _
  congr 1
  simp

/-- C9 witness: the amended setter theorem at a concrete nonempty zone. -/
theorem c9_set_time_zone_witness :
    "Europe/Berlin" ≠ "" ∧
    (setTimeZone baseState "Europe/Berlin").timeZone = "Europe/Berlin" :=
  ⟨by decide, (c9_set_time_zone baseState "Europe/Berlin" utcZones (by decide)).1⟩
